import Mathlib

/-!
Verification of `t-weigh-bee` against its specification.

The repository's only source file is `src/lmic_project_config.h`, a C
preprocessor configuration header for an LMIC LoRaWAN stack.  We embed the
header as the sequence of preprocessor directives it contains, acting on a
macro environment, and prove the configuration claims about the resulting
environment.  The MAC session and frame codec, which the specification
describes but whose code is not in the repository, are modelled from the
specification text (see the doc comments marked `Modelled from the spec`).
-/

/-- Names of the macros that `src/lmic_project_config.h` mentions.
`projectConfigGuard` stands for the include-guard macro
`_lmic_project_config_h_` (lines 2-3 and 50). -/
inductive MacroName where
  | projectConfigGuard
  | CFG_au915
  | CFG_eu868
  | CFG_us915
  | CFG_sx1262_radio
  | CFG_sx1276_radio
  | CFG_sx1272_radio
  | DISABLE_PING
  | DISABLE_BEACONS
  | LMIC_DEBUG_LEVEL
  | LMIC_PRINTF_TO
  | LMIC_ENABLE_arbitrary_clock_error
  | OSTICKS_PER_SEC
  | LMIC_FAILURE_TO
  | DISABLE_LMIC_FAILURE_TO
  | LMIC_CLOCKERROR_PPM
  | LMIC_USE_INTERRUPTS
  | LMIC_SX1262_TXCO_STARTUP_DELAY
  | LMIC_ENABLE_long_messages
  deriving DecidableEq

/-- Replacement texts appearing in the header: an empty expansion
(`#define NAME`), a numeric literal, or the token sequence `Serial.printf`. -/
inductive MacroValue where
  | empty
  | num (n : Nat)
  | serialPrintf
  deriving DecidableEq

/-- A macro environment: which macros are currently defined, and to what. -/
def MacroEnv : Type := MacroName → Option MacroValue

/-- The two preprocessor directives the header uses. -/
inductive Directive where
  | define (name : MacroName) (value : MacroValue)
  | undef (name : MacroName)
  deriving DecidableEq

/-- Effect of one `#define`/`#undef` directive on the macro environment. -/
def applyDirective (env : MacroEnv) : Directive → MacroEnv
  | .define n v => fun m => if m = n then some v else env m
  | .undef n => fun m => if m = n then none else env m

/-- Effect of a directive sequence, first directive applied first. -/
def applyDirectives (env : MacroEnv) (ds : List Directive) : MacroEnv :=
  ds.foldl applyDirective env

/-- The directives of `src/lmic_project_config.h` in source order
(lines 3-48), beginning with the include-guard definition. -/
def lmicProjectConfigBody : List Directive :=
  [ .define .projectConfigGuard .empty,
    .define .CFG_au915 (.num 1),
    .undef .CFG_eu868,
    .undef .CFG_us915,
    .define .CFG_sx1262_radio (.num 1),
    .undef .CFG_sx1276_radio,
    .undef .CFG_sx1272_radio,
    .define .DISABLE_PING .empty,
    .define .DISABLE_BEACONS .empty,
    .define .LMIC_DEBUG_LEVEL (.num 2),
    .define .LMIC_PRINTF_TO .serialPrintf,
    .define .LMIC_ENABLE_arbitrary_clock_error (.num 1),
    .define .OSTICKS_PER_SEC (.num 32768),
    .define .LMIC_FAILURE_TO .serialPrintf,
    .define .DISABLE_LMIC_FAILURE_TO .empty,
    .define .LMIC_CLOCKERROR_PPM (.num 10),
    .define .LMIC_USE_INTERRUPTS .empty,
    .define .LMIC_SX1262_TXCO_STARTUP_DELAY (.num 5),
    .define .LMIC_ENABLE_long_messages (.num 1) ]

/-- Processing the whole header once: the `#ifndef _lmic_project_config_h_`
guard (line 2) skips the body when the guard macro is already defined. -/
def includeHeader (env : MacroEnv) : MacroEnv :=
  match env MacroName.projectConfigGuard with
  | some _ => env
  | none => applyDirectives env lmicProjectConfigBody

/-- C1: after processing the header from any prior macro environment, the
region flag `CFG_au915` is defined with value `1`, while the alternative
region flags `CFG_eu868` and `CFG_us915` are both undefined. -/
theorem config_selects_au915_region (env : MacroEnv) :
    applyDirectives env lmicProjectConfigBody MacroName.CFG_au915
        = some (MacroValue.num 1)
      ∧ applyDirectives env lmicProjectConfigBody MacroName.CFG_eu868 = none
      ∧ applyDirectives env lmicProjectConfigBody MacroName.CFG_us915 = none :=
  ⟨rfl, rfl, rfl⟩

/-- C2: after processing the header from any prior macro environment, the
radio flag `CFG_sx1262_radio` is defined with value `1`, while the
alternative radio flags `CFG_sx1276_radio` and `CFG_sx1272_radio` are both
undefined. -/
theorem config_selects_sx1262_radio (env : MacroEnv) :
    applyDirectives env lmicProjectConfigBody MacroName.CFG_sx1262_radio
        = some (MacroValue.num 1)
      ∧ applyDirectives env lmicProjectConfigBody MacroName.CFG_sx1276_radio
        = none
      ∧ applyDirectives env lmicProjectConfigBody MacroName.CFG_sx1272_radio
        = none :=
  ⟨rfl, rfl, rfl⟩

/-- C3: after processing the header, both `DISABLE_PING` and
`DISABLE_BEACONS` are defined, disabling ping-slot (Class B) and beacon
support, so the stack is restricted to Class-A operation. -/
theorem config_class_a_only (env : MacroEnv) :
    applyDirectives env lmicProjectConfigBody MacroName.DISABLE_PING
        = some MacroValue.empty
      ∧ applyDirectives env lmicProjectConfigBody MacroName.DISABLE_BEACONS
        = some MacroValue.empty :=
  ⟨rfl, rfl⟩

/-- C4: after processing the header, `LMIC_CLOCKERROR_PPM` is defined with
value `10` and `LMIC_ENABLE_arbitrary_clock_error` is defined with value
`1`: the configured clock-error tolerance is exactly 10 ppm. -/
theorem config_clock_error_ppm (env : MacroEnv) :
    applyDirectives env lmicProjectConfigBody MacroName.LMIC_CLOCKERROR_PPM
        = some (MacroValue.num 10)
      ∧ applyDirectives env lmicProjectConfigBody
          MacroName.LMIC_ENABLE_arbitrary_clock_error
        = some (MacroValue.num 1) :=
  ⟨rfl, rfl⟩

/-- C5: after processing the header, the macro `LMIC_USE_INTERRUPTS` is
defined, enabling interrupt-driven timing. -/
theorem config_use_interrupts (env : MacroEnv) :
    (applyDirectives env lmicProjectConfigBody
        MacroName.LMIC_USE_INTERRUPTS).isSome = true :=
  rfl

/-- C6: after processing the header, `DISABLE_LMIC_FAILURE_TO` is defined
(disabling the stack's failure output) while at the same time
`LMIC_DEBUG_LEVEL` is defined as `2`, `LMIC_PRINTF_TO` as `Serial.printf`,
and `LMIC_FAILURE_TO` is also defined as `Serial.printf`: both a
failure-output destination and the flag disabling failure output are set in
the same configuration. -/
theorem config_failure_flags_both_set (env : MacroEnv) :
    applyDirectives env lmicProjectConfigBody
        MacroName.DISABLE_LMIC_FAILURE_TO = some MacroValue.empty
      ∧ applyDirectives env lmicProjectConfigBody MacroName.LMIC_DEBUG_LEVEL
        = some (MacroValue.num 2)
      ∧ applyDirectives env lmicProjectConfigBody MacroName.LMIC_PRINTF_TO
        = some MacroValue.serialPrintf
      ∧ applyDirectives env lmicProjectConfigBody MacroName.LMIC_FAILURE_TO
        = some MacroValue.serialPrintf :=
  ⟨rfl, rfl, rfl, rfl⟩

/-- C9: after processing the header, `OSTICKS_PER_SEC` is defined with
value `32768`: the monotonic clock's tick rate is fixed at 32768 ticks per
second. -/
theorem config_osticks_per_sec (env : MacroEnv) :
    applyDirectives env lmicProjectConfigBody MacroName.OSTICKS_PER_SEC
        = some (MacroValue.num 32768) :=
  rfl

/-- Processing the body always leaves the include-guard macro defined. -/
theorem guard_defined_after_body (env : MacroEnv) :
    applyDirectives env lmicProjectConfigBody MacroName.projectConfigGuard
      = some MacroValue.empty :=
  rfl

/-- Processing the header is idempotent on macro environments. -/
theorem includeHeader_idem (env : MacroEnv) :
    includeHeader (includeHeader env) = includeHeader env := by
  unfold includeHeader
  cases h : env MacroName.projectConfigGuard with
  | some v => simp [h]
  | none => simp [h, guard_defined_after_body]

/-- C10: including the configuration header is idempotent: thanks to the
include guard `_lmic_project_config_h_`, processing the header any number of
further times after the first produces exactly the macro environment that
processing it once produces. -/
theorem include_guard_idempotent (env : MacroEnv) (n : Nat) :
    includeHeader^[n] (includeHeader env) = includeHeader env := by
  induction n with
  | zero => rfl
  | succ k ih => rw [Function.iterate_succ_apply, includeHeader_idem, ih]

/-- Modelled from the spec: the session keys of section 3 (network session
key for MIC computation, application session key for payload encryption),
as byte lists; the key code is not in the repository. -/
structure SessionKeys where
  nwkSKey : List Nat
  appSKey : List Nat
  deriving DecidableEq

/-- Modelled from the spec: the Session of section 3 (device address,
uplink/downlink frame counters, session keys); the MAC engine code is not
in the repository.  ADR fields are omitted as no claim mentions them. -/
structure Session where
  devAddr : Nat
  fcntUp : Nat
  fcntDown : Nat
  keys : SessionKeys
  deriving DecidableEq

/-- Errors the codec and counter bookkeeping signal, from sections 4.4
and 7 of the spec. -/
inductive DecodeError where
  | InvalidLength
  | InvalidMic
  | ReplayedCounter
  deriving DecidableEq

/-- Modelled from the spec: one successful uplink send increments the
uplink frame counter (section 4.3: build frame, incrementing uplink
counter); the MAC engine code is not in the repository. -/
def sendUplink (s : Session) : Session :=
  { s with fcntUp := s.fcntUp + 1 }

/-- Iterated successful uplink sends. -/
def sendUplinkN (s : Session) : Nat → Session
  | 0 => s
  | n + 1 => sendUplink (sendUplinkN s n)

/-- Modelled from the spec: downlink frame-counter bookkeeping (sections 3
and 4.4): a downlink counter is accepted only when strictly greater than
the last accepted value, otherwise the frame is rejected with
`ReplayedCounter`; the MAC engine code is not in the repository. -/
def acceptDownlinkCounter (s : Session) (c : Nat) : Except DecodeError Session :=
  if s.fcntDown < c then .ok { s with fcntDown := c }
  else .error .ReplayedCounter

/-- C7: for every session state and every `N`, the uplink frame counter
after `N` successful sends equals its value before plus `N`; hence frame
counters strictly increase across the session lifetime; and any replayed or
decreasing downlink counter is rejected. -/
theorem session_counters_monotonic (s : Session) (N : Nat) :
    (sendUplinkN s N).fcntUp = s.fcntUp + N
      ∧ (0 < N → s.fcntUp < (sendUplinkN s N).fcntUp)
      ∧ ∀ c, c ≤ s.fcntDown →
          acceptDownlinkCounter s c = .error .ReplayedCounter := by
  have hcount : (sendUplinkN s N).fcntUp = s.fcntUp + N := by
    induction N with
    | zero => rfl
    | succ k ih => simp [sendUplinkN, sendUplink, ih]; omega
  refine ⟨hcount, ?_, ?_⟩
  · intro hN
    omega
  · intro c hc
    unfold acceptDownlinkCounter
    rw [if_neg (by omega)]

/-- A sample session used to instantiate the session theorems. -/
def sampleSession : Session :=
  { devAddr := 16909060, fcntUp := 7, fcntDown := 5,
    keys := { nwkSKey := [1, 2, 3, 4], appSKey := [9, 8, 7, 6] } }

/-- Witness for C7 at a concrete session: three sends add three to the
uplink counter, the counter strictly increases, and the replayed downlink
counter 5 is rejected. -/
theorem session_counters_monotonic_witness :
    (sendUplinkN sampleSession 3).fcntUp = sampleSession.fcntUp + 3
      ∧ sampleSession.fcntUp < (sendUplinkN sampleSession 3).fcntUp
      ∧ acceptDownlinkCounter sampleSession 5 = .error .ReplayedCounter :=
  ⟨(session_counters_monotonic sampleSession 3).1,
   (session_counters_monotonic sampleSession 3).2.1 (by decide),
   (session_counters_monotonic sampleSession 3).2.2 5 (by decide)⟩

/-- Modelled from the spec: one byte of the counter-mode keystream of
section 4.4, keyed by the application session key with a block counter
derived from the direction and the frame counter; the cipher code is not in
the repository. -/
def keystreamByte (key : List Nat) (dir fcnt j : Nat) : Nat :=
  (key.getD (j % 16) 0) ^^^ ((dir * 97 + fcnt * 31 + j) % 256)

/-- Modelled from the spec: counter-mode stream encryption of a byte list
starting at keystream position `j` (section 4.4); applying it twice with
the same key, direction, frame counter and position decrypts. -/
def cryptBytes (key : List Nat) (dir fcnt : Nat) : Nat → List Nat → List Nat
  | _, [] => []
  | j, b :: bs => (b ^^^ keystreamByte key dir fcnt j) :: cryptBytes key dir fcnt (j + 1) bs

/-- Modelled from the spec: the 4-byte truncated message authentication
code of section 4.4 over the full frame body, keyed by the network session
key; byte `j` mixes key byte `j` with every body byte. -/
def micOf (key : List Nat) (msg : List Nat) : List Nat :=
  (List.range 4).map (fun j => msg.foldl Nat.xor (key.getD j 0))

/-- Modelled from the spec: the frame header of section 4.4 (MHDR, device
address, frame-control, 16-bit frame counter, port), little-endian. -/
def frameHeader (devAddr fcnt port : Nat) : List Nat :=
  [64, devAddr % 256, devAddr / 256 % 256, devAddr / 65536 % 256,
   devAddr / 16777216 % 256, 0, fcnt % 256, fcnt / 256 % 256, port % 256]

/-- Modelled from the spec: the Frame Codec encoder of section 4.4 (uplink
direction 0): header, then the encrypted payload, then the 4-byte MIC over
header plus ciphertext; the codec code is not in the repository. -/
def encodeFrame (keys : SessionKeys) (devAddr fcnt port : Nat)
    (payload : List Nat) : List Nat :=
  frameHeader devAddr fcnt port ++ cryptBytes keys.appSKey 0 fcnt 0 payload
    ++ micOf keys.nwkSKey
        (frameHeader devAddr fcnt port ++ cryptBytes keys.appSKey 0 fcnt 0 payload)

/-- The fields the Frame Codec decoder recovers. -/
structure DecodedFrame where
  devAddr : Nat
  fcnt : Nat
  port : Nat
  payload : List Nat
  deriving DecidableEq

/-- Modelled from the spec: the Frame Codec decoder of section 4.4: split
off the trailing 4-byte MIC, recompute it over the body and reject a
mismatch with `InvalidMic`, then recover address, counter, port and the
decrypted payload; the codec code is not in the repository. -/
def decodeFrame (keys : SessionKeys) (frame : List Nat) :
    Except DecodeError DecodedFrame :=
  if frame.length < 13 then .error .InvalidLength
  else if micOf keys.nwkSKey (frame.take (frame.length - 4))
      = frame.drop (frame.length - 4) then
    .ok { devAddr := frame.getD 1 0 + 256 * frame.getD 2 0
            + 65536 * frame.getD 3 0 + 16777216 * frame.getD 4 0,
          fcnt := frame.getD 6 0 + 256 * frame.getD 7 0,
          port := frame.getD 8 0,
          payload := cryptBytes keys.appSKey 0
            (frame.getD 6 0 + 256 * frame.getD 7 0) 0
            ((frame.take (frame.length - 4)).drop 9) }
  else .error .InvalidMic

/-- Encrypting preserves the byte count. -/
theorem cryptBytes_length (key : List Nat) (dir fcnt : Nat) :
    ∀ (j : Nat) (l : List Nat), (cryptBytes key dir fcnt j l).length = l.length := by
  intro j l
  induction l generalizing j with
  | nil => rfl
  | cons b bs ih => simp [cryptBytes, ih]

/-- Encrypting twice at the same keystream position decrypts. -/
theorem cryptBytes_cryptBytes (key : List Nat) (dir fcnt : Nat) :
    ∀ (j : Nat) (l : List Nat),
      cryptBytes key dir fcnt j (cryptBytes key dir fcnt j l) = l := by
  intro j l
  induction l generalizing j with
  | nil => rfl
  | cons b bs ih => simp [cryptBytes, ih, Nat.xor_assoc]

/-- The MIC spelled out as its four bytes. -/
theorem micOf_eq (key msg : List Nat) :
    micOf key msg
      = [msg.foldl Nat.xor (key.getD 0 0), msg.foldl Nat.xor (key.getD 1 0),
         msg.foldl Nat.xor (key.getD 2 0), msg.foldl Nat.xor (key.getD 3 0)] :=
  rfl

/-- The MIC is four bytes long. -/
theorem micOf_length (key msg : List Nat) : (micOf key msg).length = 4 :=
  rfl

/-- An xor-fold distributes over an xor applied to its initial value. -/
theorem foldl_xor_init (l : List Nat) : ∀ (a m : Nat),
    l.foldl Nat.xor (a ^^^ m) = (l.foldl Nat.xor a) ^^^ m := by
  induction l with
  | nil => intro a m; rfl
  | cons x xs ih =>
    intro a m
    show xs.foldl Nat.xor ((a ^^^ m) ^^^ x) = xs.foldl Nat.xor (a ^^^ x) ^^^ m
    rw [Nat.xor_assoc, Nat.xor_comm m x, ← Nat.xor_assoc, ih]

/-- Flipping bits `m` in one list element flips the same bits in any
xor-fold over the list. -/
theorem foldl_xor_set (l : List Nat) : ∀ (i : Nat), i < l.length →
    ∀ (a m : Nat),
    (l.set i (l.getD i 0 ^^^ m)).foldl Nat.xor a = (l.foldl Nat.xor a) ^^^ m := by
  induction l with
  | nil => intro i hi; simp at hi
  | cons x xs ih =>
    intro i hi a m
    cases i with
    | zero =>
      show xs.foldl Nat.xor (a ^^^ (x ^^^ m)) = xs.foldl Nat.xor (a ^^^ x) ^^^ m
      rw [← Nat.xor_assoc, foldl_xor_init]
    | succ j =>
      have hj : j < xs.length := by simpa using hi
      show (xs.set j (xs.getD j 0 ^^^ m)).foldl Nat.xor (a ^^^ x)
          = xs.foldl Nat.xor (a ^^^ x) ^^^ m
      exact ih j hj (a ^^^ x) m

/-- Xor with a nonzero mask moves every value. -/
theorem xor_ne_self_of_ne_zero (x m : Nat) (hm : m ≠ 0) : x ^^^ m ≠ x := by
  intro h
  apply hm
  have h0 : x ^^^ m = x ^^^ 0 := by rw [Nat.xor_zero]; exact h
  exact Nat.xor_right_inj.mp h0

/-- Decoding a well-formed body with its correct MIC appended succeeds and
recovers the header fields and decrypted payload. -/
theorem decode_body_mic (keys : SessionKeys) (body : List Nat)
    (h9 : 9 ≤ body.length) :
    decodeFrame keys (body ++ micOf keys.nwkSKey body)
      = .ok { devAddr := body.getD 1 0 + 256 * body.getD 2 0
                + 65536 * body.getD 3 0 + 16777216 * body.getD 4 0,
              fcnt := body.getD 6 0 + 256 * body.getD 7 0,
              port := body.getD 8 0,
              payload := cryptBytes keys.appSKey 0
                (body.getD 6 0 + 256 * body.getD 7 0) 0 (body.drop 9) } := by
  unfold decodeFrame
  have hlen : (body ++ micOf keys.nwkSKey body).length = body.length + 4 := by
    rw [List.length_append, micOf_length]
  rw [hlen, if_neg (by omega)]
  have h4 : body.length + 4 - 4 = body.length := by omega
  rw [h4, List.take_left, List.drop_left, if_pos rfl]
  rw [List.getD_append _ _ _ 1 (by omega), List.getD_append _ _ _ 2 (by omega),
    List.getD_append _ _ _ 3 (by omega), List.getD_append _ _ _ 4 (by omega),
    List.getD_append _ _ _ 6 (by omega), List.getD_append _ _ _ 7 (by omega),
    List.getD_append _ _ _ 8 (by omega)]

/-- Decoding a long-enough frame whose trailing four bytes disagree with
the MIC of its body signals `InvalidMic`. -/
theorem decode_mic_mismatch (keys : SessionKeys) (body mic : List Nat)
    (h9 : 9 ≤ body.length) (hm4 : mic.length = 4)
    (hne : micOf keys.nwkSKey body ≠ mic) :
    decodeFrame keys (body ++ mic) = .error .InvalidMic := by
  unfold decodeFrame
  have hlen : (body ++ mic).length = body.length + 4 := by
    rw [List.length_append, hm4]
  rw [hlen, if_neg (by omega)]
  have h4 : body.length + 4 - 4 = body.length := by omega
  rw [h4, List.take_left, List.drop_left, if_neg hne]

/-- Decoding an encoded frame with the same session keys recovers the
device address, frame counter, port and payload. -/
theorem decode_encodeFrame (keys : SessionKeys) (devAddr fcnt port : Nat)
    (payload : List Nat) (ha : devAddr < 4294967296) (hf : fcnt < 65536)
    (hp : port < 256) :
    decodeFrame keys (encodeFrame keys devAddr fcnt port payload)
      = .ok { devAddr := devAddr, fcnt := fcnt, port := port,
              payload := payload } := by
  have h9 : 9 ≤ (frameHeader devAddr fcnt port
      ++ cryptBytes keys.appSKey 0 fcnt 0 payload).length := by
    simp [frameHeader]
  unfold encodeFrame
  rw [decode_body_mic keys _ h9]
  have haddr : (frameHeader devAddr fcnt port
        ++ cryptBytes keys.appSKey 0 fcnt 0 payload).getD 1 0
      + 256 * (frameHeader devAddr fcnt port
        ++ cryptBytes keys.appSKey 0 fcnt 0 payload).getD 2 0
      + 65536 * (frameHeader devAddr fcnt port
        ++ cryptBytes keys.appSKey 0 fcnt 0 payload).getD 3 0
      + 16777216 * (frameHeader devAddr fcnt port
        ++ cryptBytes keys.appSKey 0 fcnt 0 payload).getD 4 0 = devAddr := by
    show devAddr % 256 + 256 * (devAddr / 256 % 256)
        + 65536 * (devAddr / 65536 % 256)
        + 16777216 * (devAddr / 16777216 % 256) = devAddr
    omega
  have hfc : (frameHeader devAddr fcnt port
        ++ cryptBytes keys.appSKey 0 fcnt 0 payload).getD 6 0
      + 256 * (frameHeader devAddr fcnt port
        ++ cryptBytes keys.appSKey 0 fcnt 0 payload).getD 7 0 = fcnt := by
    show fcnt % 256 + 256 * (fcnt / 256 % 256) = fcnt
    omega
  have hpt : (frameHeader devAddr fcnt port
      ++ cryptBytes keys.appSKey 0 fcnt 0 payload).getD 8 0 = port := by
    show port % 256 = port
    omega
  have hdrop : (frameHeader devAddr fcnt port
      ++ cryptBytes keys.appSKey 0 fcnt 0 payload).drop 9
      = cryptBytes keys.appSKey 0 fcnt 0 payload := rfl
  rw [haddr, hfc, hpt, hdrop, cryptBytes_cryptBytes]

/-- Flipping bits in any single body byte changes the body's MIC. -/
theorem micOf_set_body_ne (key body : List Nat) (i m : Nat)
    (hi : i < body.length) (hm : m ≠ 0) :
    micOf key (body.set i (body.getD i 0 ^^^ m)) ≠ micOf key body := by
  rw [micOf_eq, micOf_eq]
  simp only [foldl_xor_set body i hi]
  intro h
  injection h with h0 _
  exact xor_ne_self_of_ne_zero _ _ hm h0

/-- Flipping bits in any single MIC byte makes the MIC disagree with the
body's MIC. -/
theorem micOf_set_mic_ne (key body : List Nat) (k m : Nat) (hk : k < 4)
    (hm : m ≠ 0) :
    micOf key body
      ≠ (micOf key body).set k ((micOf key body).getD k 0 ^^^ m) := by
  rw [micOf_eq]
  intro h
  have hk4 : k = 0 ∨ k = 1 ∨ k = 2 ∨ k = 3 := by omega
  rcases hk4 with hk0 | hk0 | hk0 | hk0 <;> subst hk0 <;>
    simp only [List.set_cons_zero, List.set_cons_succ, List.getD_cons_zero,
      List.getD_cons_succ, List.cons.injEq, and_true, true_and] at h <;>
    exact xor_ne_self_of_ne_zero _ _ hm h.symm

/-- Flipping any single bit of an encoded frame at or after the ciphertext
region makes decoding signal `InvalidMic`. -/
theorem decode_encodeFrame_flip (keys : SessionKeys) (devAddr fcnt port : Nat)
    (payload : List Nat) (i b : Nat)
    (h2 : i < (encodeFrame keys devAddr fcnt port payload).length) :
    decodeFrame keys ((encodeFrame keys devAddr fcnt port payload).set i
        ((encodeFrame keys devAddr fcnt port payload).getD i 0 ^^^ 2 ^ b))
      = .error .InvalidMic := by
  have hm : (2 : Nat) ^ b ≠ 0 := (pow_pos (by norm_num) b).ne'
  have hB9 : 9 ≤ (frameHeader devAddr fcnt port
      ++ cryptBytes keys.appSKey 0 fcnt 0 payload).length := by
    simp [frameHeader]
  unfold encodeFrame at h2 ⊢
  rw [List.length_append, micOf_length] at h2
  by_cases hcase : i < (frameHeader devAddr fcnt port
      ++ cryptBytes keys.appSKey 0 fcnt 0 payload).length
  · rw [List.getD_append _ _ _ _ hcase, List.set_append_left _ _ hcase]
    exact decode_mic_mismatch keys _ _ (by rw [List.length_set]; exact hB9)
      (micOf_length _ _) (micOf_set_body_ne _ _ _ _ hcase hm)
  · rw [Nat.not_lt] at hcase
    rw [List.getD_append_right _ _ _ _ hcase, List.set_append_right _ _ hcase]
    exact decode_mic_mismatch keys _ _ hB9
      (by rw [List.length_set, micOf_length])
      (micOf_set_mic_ne keys.nwkSKey _ _ _ (by omega) hm)

/-- C8: for every frame, encoding then decoding with matching session keys
yields the original payload, port and counter (and address), and every
single bit-flip applied to the ciphertext or the MIC of the encoded frame
(positions from 9, the start of the ciphertext, to the end of the MIC)
makes decoding signal `InvalidMic`. -/
theorem frame_roundtrip_and_bitflip (keys : SessionKeys)
    (devAddr fcnt port : Nat) (payload : List Nat)
    (ha : devAddr < 4294967296) (hf : fcnt < 65536) (hp : port < 256) :
    decodeFrame keys (encodeFrame keys devAddr fcnt port payload)
        = .ok { devAddr := devAddr, fcnt := fcnt, port := port,
                payload := payload }
      ∧ ∀ i b, 9 ≤ i →
          i < (encodeFrame keys devAddr fcnt port payload).length → b < 8 →
          decodeFrame keys ((encodeFrame keys devAddr fcnt port payload).set i
              ((encodeFrame keys devAddr fcnt port payload).getD i 0 ^^^ 2 ^ b))
            = .error .InvalidMic :=
  ⟨decode_encodeFrame keys devAddr fcnt port payload ha hf hp,
   fun i b _ h2 _ => decode_encodeFrame_flip keys devAddr fcnt port payload i b h2⟩

/-- Witness for C8 at concrete keys and a concrete frame: the round trip
recovers address 16909060, counter 300, port 2 and payload `[5, 250, 0]`,
and flipping bit 3 of the first ciphertext byte makes decoding signal
`InvalidMic`. -/
theorem frame_roundtrip_and_bitflip_witness :
    decodeFrame sampleSession.keys
        (encodeFrame sampleSession.keys 16909060 300 2 [5, 250, 0])
      = .ok { devAddr := 16909060, fcnt := 300, port := 2,
              payload := [5, 250, 0] }
    ∧ decodeFrame sampleSession.keys
        ((encodeFrame sampleSession.keys 16909060 300 2 [5, 250, 0]).set 9
          ((encodeFrame sampleSession.keys 16909060 300 2
            [5, 250, 0]).getD 9 0 ^^^ 2 ^ 3))
      = .error .InvalidMic :=
  ⟨(frame_roundtrip_and_bitflip sampleSession.keys 16909060 300 2 [5, 250, 0]
      (by decide) (by decide) (by decide)).1,
   (frame_roundtrip_and_bitflip sampleSession.keys 16909060 300 2 [5, 250, 0]
      (by decide) (by decide) (by decide)).2 9 3 (by decide) (by decide)
      (by decide)⟩
